import Mathlib

/-!
# OpenWRTMetrics — verification of the collection engine

A shallow embedding of the OpenWRT metrics exporter (Go) into Lean 4:
the ping probe dispatcher (`collector/ping.go`), the network / device /
UPnP snapshot sources, and the text parsers for DHCP leases, ARP tables
and miniupnpd lease files.  I/O (file reads, DNS lookups, raw sockets)
is passed in explicitly as data or as oracle functions; Go `float64`
values are modelled as `ℚ` (all arithmetic the program performs on them
is exact at these magnitudes); Go `time.Duration` is an integer count of
nanoseconds.
-/

namespace OpenWRT

/-! ## Go string helpers

Models of the Go standard-library string functions the collectors use,
restricted to the ASCII inputs these text formats contain. -/

/-- ASCII whitespace as recognised by `unicode.IsSpace` (the lease and
ARP files only contain ASCII). -/
def isSpaceGo (c : Char) : Bool :=
  c = ' ' || c = '\t' || c = '\n' || c = '\x0b' || c = '\x0c' || c = '\r'

/-- Helper for `fieldsGo`: split a character list on runs of whitespace,
accumulating the current (reversed) field. -/
def fieldsAux : List Char → List Char → List (List Char)
  | [], acc => if acc.isEmpty then [] else [acc.reverse]
  | c :: cs, acc =>
    if isSpaceGo c then
      if acc.isEmpty then fieldsAux cs [] else acc.reverse :: fieldsAux cs []
    else
      fieldsAux cs (c :: acc)

/-- Model of Go `strings.Fields`: split around runs of whitespace,
dropping empty fields. -/
def fieldsGo (s : String) : List String :=
  (fieldsAux s.data []).map String.mk

/-- Numeric value of a list of decimal digit characters. -/
def digitsToNat (cs : List Char) : Nat :=
  cs.foldl (fun n c => 10 * n + (c.toNat - '0'.toNat)) 0

/-- Model of Go `strconv.ParseInt(s, 10, 64)` / `strconv.Atoi` success:
`some` on an optionally signed non-empty string of decimal digits,
`none` on any malformed input.  (The Go 64-bit range check is not
modelled; every value these files contain is far below it.) -/
def parseIntOpt (s : String) : Option Int :=
  match s.data with
  | [] => none
  | '-' :: cs =>
    if cs.isEmpty then none
    else if cs.all Char.isDigit then some (-(digitsToNat cs : Int)) else none
  | '+' :: cs =>
    if cs.isEmpty then none
    else if cs.all Char.isDigit then some ((digitsToNat cs : Int)) else none
  | cs =>
    if cs.all Char.isDigit then some ((digitsToNat cs : Int)) else none

/-- Go `v, _ := strconv.ParseInt(s, 10, 64)`: the error is discarded and
the zero value is kept on malformed input. -/
def goParseInt (s : String) : Int :=
  (parseIntOpt s).getD 0

/-- First split of a character list at a separator character:
`none` when the separator does not occur. -/
def splitOnceAux (c : Char) : List Char → Option (List Char × List Char)
  | [] => none
  | x :: xs =>
    if x = c then some ([], xs)
    else
      match splitOnceAux c xs with
      | none => none
      | some (pre, post) => some (x :: pre, post)

/-- Helper for `goSplitN`: split into at most `n` pieces, the last piece
keeping the unsplit remainder. -/
def splitNAux (c : Char) : Nat → List Char → List (List Char)
  | 0, _ => []
  | 1, cs => [cs]
  | n + 2, cs =>
    match splitOnceAux c cs with
    | none => [cs]
    | some (pre, post) => pre :: splitNAux c (n + 1) post

/-- Model of Go `strings.SplitN(s, sep, n)` for a one-character
separator and `n > 0`: at most `n` substrings, the last one unsplit. -/
def goSplitN (s : String) (c : Char) (n : Nat) : List String :=
  (splitNAux c n s.data).map String.mk

/-- Model of Go `strings.TrimSpace` (ASCII whitespace). -/
def trimGo (s : String) : String :=
  String.mk (((s.data.dropWhile isSpaceGo).reverse.dropWhile isSpaceGo).reverse)

/-- Model of Go `strings.ToUpper` on the ASCII protocol names these
files contain. -/
def upperGo (s : String) : String :=
  String.mk (s.data.map Char.toUpper)

/-- Fractionless core of `parseFloatOpt`: an optional integer part, an
optional `.` followed by digit-only fraction, at least one digit in
total. -/
def parseDecimalOpt (cs : List Char) : Option ℚ :=
  let intPart := cs.takeWhile Char.isDigit
  match cs.dropWhile Char.isDigit with
  | [] => if intPart.isEmpty then none else some (digitsToNat intPart : ℚ)
  | '.' :: frac =>
    if frac.all Char.isDigit && !(intPart.isEmpty && frac.isEmpty) then
      some ((digitsToNat intPart : ℚ) + (digitsToNat frac : ℚ) / (10 : ℚ) ^ frac.length)
    else none
  | _ => none

/-- Model of Go `strconv.ParseFloat(s, 64)` success, restricted to
plain signed decimal notation (no exponent / hex / inf forms — all a
miniupnpd lease-duration field ever contains). -/
def parseFloatOpt (s : String) : Option ℚ :=
  match s.data with
  | '-' :: cs => (parseDecimalOpt cs).map Neg.neg
  | '+' :: cs => parseDecimalOpt cs
  | cs => parseDecimalOpt cs

/-- Go `v, _ = strconv.ParseFloat(s, 64)`: the error is discarded and
the zero value kept on malformed input. -/
def goParseFloat (s : String) : ℚ :=
  (parseFloatOpt s).getD 0

/-! ## UPnP port mappings (`UPnPCollector`, unnamed part_001) -/

/-- `UPnPMapping` from the UPnP collector. -/
structure UPnPMapping where
  Protocol : String
  ExternalPort : String
  InternalIP : String
  InternalPort : String
  LeaseSeconds : ℚ
  Description : String
deriving DecidableEq, Repr

/-- The record construction shared by both branches of the
`parseMiniUPnPDLeases` loop body: protocol upper-cased, description
trimmed and replaced by `"unknown"` when empty. -/
def mkUPnPMapping (p ep iip ipt : String) (lease : ℚ) (desc : String) : UPnPMapping :=
  let d := trimGo desc
  { Protocol := upperGo p, ExternalPort := ep, InternalIP := iip, InternalPort := ipt,
    LeaseSeconds := lease, Description := if d = "" then "unknown" else d }

/-- One iteration of the scan loop of `parseMiniUPnPDLeases`: trim the
line, skip empty and `#`-comment lines, split into at most 7 fields at
`:`.  Six fields are the old `PROTO:EXT:IP:INT:DURATION:DESC` format,
seven the timestamped `PROTO:EXT:IP:INT:TIMESTAMP:DURATION:DESC`
format; fewer than six fields skips the line. -/
def parseUPnPLine (line : String) : Option UPnPMapping :=
  let l := trimGo line
  if l = "" ∨ l.data.head? = some '#' then none
  else
    match goSplitN l ':' 7 with
    | [p, ep, iip, ipt, d, desc] => some (mkUPnPMapping p ep iip ipt (goParseFloat d) desc)
    | [p, ep, iip, ipt, _, d, desc] => some (mkUPnPMapping p ep iip ipt (goParseFloat d) desc)
    | _ => none

/-- `parseMiniUPnPDLeases` over the lines of the first lease file found. -/
def parseMiniUPnPDLeases (lines : List String) : List UPnPMapping :=
  lines.filterMap parseUPnPLine

/-! ## Ping configuration (`loadPingConfig`, collector/ping.go) -/

/-- `IPType` from collector/ping.go. -/
inductive IPType where
  | IPv4
  | IPv6
deriving DecidableEq, Repr

/-- `PingTarget` from collector/ping.go. -/
structure PingTarget where
  Host : String
  IPType : IPType
deriving DecidableEq, Repr

/-- `PingConfig` from collector/ping.go; durations in nanoseconds. -/
structure PingConfig where
  Targets : List PingTarget
  Count : Int
  Interval : Int
  Timeout : Int
  Concurrency : Int
deriving DecidableEq, Repr

/-- Duration unit suffixes of Go `time.ParseDuration` and their size in
nanoseconds, consumed from the front of a character list. -/
def durUnitNs : List Char → Option (Int × List Char)
  | 'n' :: 's' :: rest => some (1, rest)
  | 'u' :: 's' :: rest => some (1000, rest)
  | 'µ' :: 's' :: rest => some (1000, rest)
  | 'm' :: 's' :: rest => some (1000000, rest)
  | 'm' :: rest => some (60000000000, rest)
  | 's' :: rest => some (1000000000, rest)
  | 'h' :: rest => some (3600000000000, rest)
  | _ => none

/-- One or more `<digits><unit>` groups, summed in nanoseconds.  The
fuel argument bounds the recursion by the input length. -/
def parseDurGroups : Nat → List Char → Option Int
  | 0, _ => none
  | fuel + 1, cs =>
    let ds := cs.takeWhile Char.isDigit
    if ds.isEmpty then none
    else
      match durUnitNs (cs.dropWhile Char.isDigit) with
      | none => none
      | some (u, rest) =>
        let v := (digitsToNat ds : Int) * u
        if rest.isEmpty then some v
        else
          match parseDurGroups fuel rest with
          | none => none
          | some w => some (v + w)

/-- Model of Go `time.ParseDuration` success, restricted to
integer-valued components (`"10ms"`, `"3s"`, `"1h30m"`, `"0"`, signs):
`none` on empty or malformed input. -/
def parseDurationOpt (s : String) : Option Int :=
  match s.data with
  | [] => none
  | cs =>
    let signed : Bool × List Char :=
      match cs with
      | '-' :: r => (true, r)
      | '+' :: r => (false, r)
      | r => (false, r)
    if signed.2 = ['0'] then some 0
    else
      match parseDurGroups (signed.2.length + 1) signed.2 with
      | none => none
      | some v => some (if signed.1 then -v else v)

/-- The `PING_TARGETS` / `PING_TARGETS_V6` loop of `loadPingConfig`:
comma-split, trim, drop empties, tag with the address family. -/
def targetsFromEnv (s : String) (fam : IPType) : List PingTarget :=
  if s = "" then []
  else (s.splitOn ",").filterMap fun t =>
    let t' := trimGo t
    if t' = "" then none else some { Host := t', IPType := fam }

/-- The `PING_COUNT` / `PING_CONCURRENCY` blocks of `loadPingConfig`:
a non-empty, well-formed, strictly positive integer replaces the
default, anything else keeps it. -/
def pickPosInt (s : String) (dflt : Int) : Int :=
  if s = "" then dflt
  else
    match parseIntOpt s with
    | some n => if 0 < n then n else dflt
    | none => dflt

/-- The `PING_INTERVAL` / `PING_TIMEOUT` blocks of `loadPingConfig`:
a non-empty, well-formed, strictly positive duration replaces the
default, anything else keeps it. -/
def pickPosDur (s : String) (dflt : Int) : Int :=
  if s = "" then dflt
  else
    match parseDurationOpt s with
    | some v => if 0 < v then v else dflt
    | none => dflt

/-- `loadPingConfig` from collector/ping.go over an environment map
(`os.Getenv` returns `""` for an unset variable).  Defaults: count 10,
interval 10ms, timeout 3s, concurrency 10. -/
def loadPingConfig (env : String → String) : PingConfig :=
  { Targets := targetsFromEnv (env "PING_TARGETS") .IPv4 ++
               targetsFromEnv (env "PING_TARGETS_V6") .IPv6,
    Count := pickPosInt (env "PING_COUNT") 10,
    Interval := pickPosDur (env "PING_INTERVAL") 10000000,
    Timeout := pickPosDur (env "PING_TIMEOUT") 3000000000,
    Concurrency := pickPosInt (env "PING_CONCURRENCY") 10 }

/-! ## Connected devices (`DeviceCollector`, unnamed part_000) -/

/-- `ConnectedDevice` from the device collector. -/
structure ConnectedDevice where
  Hostname : String
  IP : String
  MAC : String
  OnlineTime : ℚ
  LeaseRemain : ℚ
deriving DecidableEq, Repr

/-- One iteration of the scan loop of `parseDHCPLeases`: a dnsmasq lease
line `<expiry_time> <mac> <ip> <hostname> <client_id>` parsed at Unix
time `now`.  Lines with fewer than 4 whitespace-separated fields are
skipped; a `*` hostname becomes empty; the remaining lease time is
`expiry - now` when the expiry is still in the future and `0` otherwise. -/
def parseDHCPLine (now : Int) (line : String) : Option ConnectedDevice :=
  match fieldsGo line with
  | e :: mac :: ip :: host :: _ =>
    let expiryTime := goParseInt e
    let hostname := if host = "*" then "" else host
    let leaseRemain : ℚ := if expiryTime > now then ((expiryTime - now : Int) : ℚ) else 0
    some { Hostname := hostname, IP := ip, MAC := mac,
           LeaseRemain := leaseRemain, OnlineTime := 0 }
  | _ => none

/-- `parseDHCPLeases` over the lines of the first lease file found. -/
def parseDHCPLeases (now : Int) (lines : List String) : List ConnectedDevice :=
  lines.filterMap (parseDHCPLine now)

/-- A metric sample as produced by `prometheus.MustNewConstMetric`:
metric family name, sample value, and ordered label values. -/
structure Metric where
  name : String
  value : ℚ
  labels : List String
deriving DecidableEq, Repr

/-- The emission loop of `DeviceCollector.Collect`: per device, the
info sample (value 1) unconditionally, the online-seconds sample only
when `OnlineTime > 0`, the lease-remaining sample only when
`LeaseRemain > 0`. -/
def deviceCollect : List ConnectedDevice → List Metric
  | [] => []
  | d :: ds =>
    { name := "openwrt_device_info", value := 1, labels := [d.Hostname, d.IP, d.MAC] } ::
    ((if 0 < d.OnlineTime then
        [{ name := "openwrt_device_online_seconds", value := d.OnlineTime,
           labels := [d.Hostname, d.IP, d.MAC] }]
      else []) ++
     (if 0 < d.LeaseRemain then
        [{ name := "openwrt_device_dhcp_lease_remaining_seconds", value := d.LeaseRemain,
           labels := [d.Hostname, d.IP, d.MAC] }]
      else []) ++
     deviceCollect ds)

end OpenWRT

namespace OpenWRT

/-- C8: a DHCP lease line with expiry `E` parsed at time `now` yields a
device whose `LeaseRemain` is `E - now` when `E > now` and `0`
otherwise — never negative — with the hostname taken from the fourth
field (`*` mapped to empty). -/
theorem dhcp_lease_remaining (now : Int) (line e mac ip host : String)
    (rest : List String)
    (hf : fieldsGo line = e :: mac :: ip :: host :: rest) :
    ∃ d, parseDHCPLine now line = some d ∧
      d.LeaseRemain = (if goParseInt e > now then ((goParseInt e - now : Int) : ℚ) else 0) ∧
      0 ≤ d.LeaseRemain ∧
      d.Hostname = (if host = "*" then "" else host) ∧
      d.IP = ip ∧ d.MAC = mac := by
  refine ⟨{ Hostname := if host = "*" then "" else host, IP := ip, MAC := mac,
            LeaseRemain := if goParseInt e > now then ((goParseInt e - now : Int) : ℚ) else 0,
            OnlineTime := 0 },
          by simp only [parseDHCPLine, hf], rfl, ?_, rfl, rfl, rfl⟩
  by_cases h : goParseInt e > now
  · simp only [h, if_pos]
    have : (0 : Int) ≤ goParseInt e - now := by omega
    exact_mod_cast this
  · simp [h]

/-- `pickPosInt` keeps the default when the variable is unset or
malformed (`strconv.Atoi` fails). -/
theorem pickPosInt_eq_default_of_none {s : String} (dflt : Int)
    (h : parseIntOpt s = none) : pickPosInt s dflt = dflt := by
  by_cases hs : s = "" <;> simp [pickPosInt, hs, h]

/-- `pickPosInt` keeps the default when the parsed value is not
strictly positive. -/
theorem pickPosInt_eq_default_of_nonpos {s : String} {n : Int} (dflt : Int)
    (h : parseIntOpt s = some n) (hn : n ≤ 0) : pickPosInt s dflt = dflt := by
  have hs : s ≠ "" := by
    rintro rfl
    exact Option.noConfusion (h.symm.trans rfl)
  simp [pickPosInt, hs, h, not_lt.2 hn]

/-- `pickPosInt` adopts a well-formed strictly positive value. -/
theorem pickPosInt_eq_of_pos {s : String} {n : Int} (dflt : Int)
    (h : parseIntOpt s = some n) (hn : 0 < n) : pickPosInt s dflt = n := by
  have hs : s ≠ "" := by
    rintro rfl
    exact Option.noConfusion (h.symm.trans rfl)
  simp [pickPosInt, hs, h, hn]

/-- `pickPosDur` keeps the default when the variable is unset or
malformed (`time.ParseDuration` fails). -/
theorem pickPosDur_eq_default_of_none {s : String} (dflt : Int)
    (h : parseDurationOpt s = none) : pickPosDur s dflt = dflt := by
  by_cases hs : s = "" <;> simp [pickPosDur, hs, h]

/-- `pickPosDur` keeps the default when the parsed duration is not
strictly positive. -/
theorem pickPosDur_eq_default_of_nonpos {s : String} {n : Int} (dflt : Int)
    (h : parseDurationOpt s = some n) (hn : n ≤ 0) : pickPosDur s dflt = dflt := by
  have hs : s ≠ "" := by
    rintro rfl
    exact Option.noConfusion (h.symm.trans rfl)
  simp [pickPosDur, hs, h, not_lt.2 hn]

/-- `pickPosDur` adopts a well-formed strictly positive duration. -/
theorem pickPosDur_eq_of_pos {s : String} {n : Int} (dflt : Int)
    (h : parseDurationOpt s = some n) (hn : 0 < n) : pickPosDur s dflt = n := by
  have hs : s ≠ "" := by
    rintro rfl
    exact Option.noConfusion (h.symm.trans rfl)
  simp [pickPosDur, hs, h, hn]

/-- C9: for each probe configuration variable, an unset or malformed
value (parser returns `none`) or a non-positive value leaves the
default in force (count 10, interval 10ms, timeout 3s, concurrency 10);
a well-formed strictly positive value replaces it. -/
theorem ping_config_env_guards (env : String → String) :
    ((parseIntOpt (env "PING_COUNT") = none → (loadPingConfig env).Count = 10) ∧
     (∀ n : Int, parseIntOpt (env "PING_COUNT") = some n → n ≤ 0 →
        (loadPingConfig env).Count = 10) ∧
     (∀ n : Int, parseIntOpt (env "PING_COUNT") = some n → 0 < n →
        (loadPingConfig env).Count = n)) ∧
    ((parseDurationOpt (env "PING_INTERVAL") = none → (loadPingConfig env).Interval = 10000000) ∧
     (∀ n : Int, parseDurationOpt (env "PING_INTERVAL") = some n → n ≤ 0 →
        (loadPingConfig env).Interval = 10000000) ∧
     (∀ n : Int, parseDurationOpt (env "PING_INTERVAL") = some n → 0 < n →
        (loadPingConfig env).Interval = n)) ∧
    ((parseDurationOpt (env "PING_TIMEOUT") = none → (loadPingConfig env).Timeout = 3000000000) ∧
     (∀ n : Int, parseDurationOpt (env "PING_TIMEOUT") = some n → n ≤ 0 →
        (loadPingConfig env).Timeout = 3000000000) ∧
     (∀ n : Int, parseDurationOpt (env "PING_TIMEOUT") = some n → 0 < n →
        (loadPingConfig env).Timeout = n)) ∧
    ((parseIntOpt (env "PING_CONCURRENCY") = none → (loadPingConfig env).Concurrency = 10) ∧
     (∀ n : Int, parseIntOpt (env "PING_CONCURRENCY") = some n → n ≤ 0 →
        (loadPingConfig env).Concurrency = 10) ∧
     (∀ n : Int, parseIntOpt (env "PING_CONCURRENCY") = some n → 0 < n →
        (loadPingConfig env).Concurrency = n)) :=
  ⟨⟨fun h => pickPosInt_eq_default_of_none 10 h,
    fun _ h hn => pickPosInt_eq_default_of_nonpos 10 h hn,
    fun _ h hn => pickPosInt_eq_of_pos 10 h hn⟩,
   ⟨fun h => pickPosDur_eq_default_of_none 10000000 h,
    fun _ h hn => pickPosDur_eq_default_of_nonpos 10000000 h hn,
    fun _ h hn => pickPosDur_eq_of_pos 10000000 h hn⟩,
   ⟨fun h => pickPosDur_eq_default_of_none 3000000000 h,
    fun _ h hn => pickPosDur_eq_default_of_nonpos 3000000000 h hn,
    fun _ h hn => pickPosDur_eq_of_pos 3000000000 h hn⟩,
   ⟨fun h => pickPosInt_eq_default_of_none 10 h,
    fun _ h hn => pickPosInt_eq_default_of_nonpos 10 h hn,
    fun _ h hn => pickPosInt_eq_of_pos 10 h hn⟩⟩

/-- A concrete environment: valid count, malformed interval, negative
timeout, zero concurrency. -/
def envC9 : String → String := fun k =>
  if k = "PING_COUNT" then "5"
  else if k = "PING_INTERVAL" then "soon"
  else if k = "PING_TIMEOUT" then "-2s"
  else if k = "PING_CONCURRENCY" then "0"
  else ""

/-- Witness for C9: only the valid positive count replaces its default;
the malformed interval, negative timeout and zero concurrency keep
theirs. -/
theorem ping_config_env_guards_witness :
    (loadPingConfig envC9).Count = 5 ∧ (loadPingConfig envC9).Interval = 10000000 ∧
    (loadPingConfig envC9).Timeout = 3000000000 ∧ (loadPingConfig envC9).Concurrency = 10 :=
  ⟨(ping_config_env_guards envC9).1.2.2 5 (by decide) (by decide),
   (ping_config_env_guards envC9).2.1.1 (by decide),
   (ping_config_env_guards envC9).2.2.1.2.1 (-2000000000) (by decide) (by decide),
   (ping_config_env_guards envC9).2.2.2.2.1 0 (by decide) (by decide)⟩

/-- C7: a 6-field miniupnpd lease line and a 7-field (timestamped) line
that agree on protocol, external port, internal IP, internal port,
lease duration and description parse to the same `UPnPMapping`, and a
description that trims to empty is replaced by `"unknown"`. -/
theorem upnp_formats_agree (line6 line7 p ep iip ipt ts d desc : String)
    (h6 : goSplitN (trimGo line6) ':' 7 = [p, ep, iip, ipt, d, desc])
    (h7 : goSplitN (trimGo line7) ':' 7 = [p, ep, iip, ipt, ts, d, desc])
    (hg6 : ¬(trimGo line6 = "" ∨ (trimGo line6).data.head? = some '#'))
    (hg7 : ¬(trimGo line7 = "" ∨ (trimGo line7).data.head? = some '#')) :
    (parseUPnPLine line6).isSome ∧
    parseUPnPLine line6 = parseUPnPLine line7 ∧
    (trimGo desc = "" → ∀ m, parseUPnPLine line6 = some m → m.Description = "unknown") := by
  have e6 : parseUPnPLine line6 = some (mkUPnPMapping p ep iip ipt (goParseFloat d) desc) := by
    simp only [parseUPnPLine, if_neg hg6, h6]
  have e7 : parseUPnPLine line7 = some (mkUPnPMapping p ep iip ipt (goParseFloat d) desc) := by
    simp only [parseUPnPLine, if_neg hg7, h7]
  refine ⟨by rw [e6]; rfl, e6.trans e7.symm, fun hd m hm => ?_⟩
  rw [e6] at hm
  cases hm
  simp [mkUPnPMapping, hd]

/-- Witness for C7 at a concrete 6-field and 7-field line pair with an
empty description: both parse to the same record and the description is
normalized to `"unknown"`. -/
theorem upnp_formats_agree_witness :
    (parseUPnPLine "tcp:8080:192.168.1.2:80:3600:" =
      some { Protocol := "TCP", ExternalPort := "8080", InternalIP := "192.168.1.2",
             InternalPort := "80", LeaseSeconds := 3600, Description := "unknown" }) ∧
    ((parseUPnPLine "tcp:8080:192.168.1.2:80:3600:").isSome ∧
     parseUPnPLine "tcp:8080:192.168.1.2:80:3600:" =
       parseUPnPLine "tcp:8080:192.168.1.2:80:1714000000:3600:" ∧
     (trimGo "" = "" → ∀ m, parseUPnPLine "tcp:8080:192.168.1.2:80:3600:" = some m →
        m.Description = "unknown")) :=
  ⟨by decide,
   upnp_formats_agree "tcp:8080:192.168.1.2:80:3600:" "tcp:8080:192.168.1.2:80:1714000000:3600:"
     "tcp" "8080" "192.168.1.2" "80" "1714000000" "3600" ""
     (by decide) (by decide) (by decide) (by decide)⟩

/-- Witness for C8 at the spec's end-to-end scenario: the line
`1714000000 aa:bb:cc:dd:ee:ff 192.168.1.50 my-phone *` parsed at time
`1713999000` gives `LeaseRemain = 1000` and hostname `my-phone`. -/
theorem dhcp_lease_remaining_witness :
    (parseDHCPLine 1713999000 "1714000000 aa:bb:cc:dd:ee:ff 192.168.1.50 my-phone *" =
      some { Hostname := "my-phone", IP := "192.168.1.50", MAC := "aa:bb:cc:dd:ee:ff",
             OnlineTime := 0, LeaseRemain := 1000 }) ∧
    (∃ d, parseDHCPLine 1713999000 "1714000000 aa:bb:cc:dd:ee:ff 192.168.1.50 my-phone *" = some d ∧
      d.LeaseRemain = (if goParseInt "1714000000" > 1713999000 then
        ((goParseInt "1714000000" - 1713999000 : Int) : ℚ) else 0) ∧
      0 ≤ d.LeaseRemain ∧
      d.Hostname = (if "my-phone" = "*" then "" else "my-phone") ∧
      d.IP = "192.168.1.50" ∧ d.MAC = "aa:bb:cc:dd:ee:ff") :=
  ⟨by decide,
   dhcp_lease_remaining 1713999000 _ "1714000000" "aa:bb:cc:dd:ee:ff" "192.168.1.50"
     "my-phone" ["*"] (by decide)⟩

end OpenWRT

namespace OpenWRT

/-- C10: over any device list, the device-info sample count equals the
number of devices, the online-seconds sample count equals the number of
devices with strictly positive online time, the lease-remaining sample
count equals the number with strictly positive lease remainder, every
device's info sample is present, and every emitted online / lease
sample carries a strictly positive value. -/
theorem device_collect_conditional_samples (devices : List ConnectedDevice) :
    ((deviceCollect devices).countP (fun m => m.name == "openwrt_device_info") =
      devices.length) ∧
    ((deviceCollect devices).countP (fun m => m.name == "openwrt_device_online_seconds") =
      devices.countP (fun d => decide (0 < d.OnlineTime))) ∧
    ((deviceCollect devices).countP
        (fun m => m.name == "openwrt_device_dhcp_lease_remaining_seconds") =
      devices.countP (fun d => decide (0 < d.LeaseRemain))) ∧
    (∀ d ∈ devices,
      ({ name := "openwrt_device_info", value := 1,
         labels := [d.Hostname, d.IP, d.MAC] } : Metric) ∈ deviceCollect devices) ∧
    (∀ m ∈ deviceCollect devices, m.name = "openwrt_device_online_seconds" → 0 < m.value) ∧
    (∀ m ∈ deviceCollect devices,
      m.name = "openwrt_device_dhcp_lease_remaining_seconds" → 0 < m.value) := by
  induction devices with
  | nil => simp [deviceCollect]
  | cons d ds ih =>
    obtain ⟨ih1, ih2, ih3, ih4, ih5, ih6⟩ := ih
    refine ⟨?_, ?_, ?_, ?_, ?_, ?_⟩
    · by_cases h1 : 0 < d.OnlineTime <;> by_cases h2 : 0 < d.LeaseRemain <;>
        simp [deviceCollect, List.countP_cons, List.countP_append, h1, h2, ih1]
    · by_cases h1 : 0 < d.OnlineTime <;> by_cases h2 : 0 < d.LeaseRemain <;>
        simp [deviceCollect, List.countP_cons, List.countP_append, h1, h2, ih2]
    · by_cases h1 : 0 < d.OnlineTime <;> by_cases h2 : 0 < d.LeaseRemain <;>
        simp [deviceCollect, List.countP_cons, List.countP_append, h1, h2, ih3]
    · intro e he
      rcases List.mem_cons.mp he with rfl | he'
      · exact List.mem_cons_self _ _
      · exact List.mem_cons_of_mem _ (List.mem_append_right _ (ih4 e he'))
    · intro m hm hname
      rcases List.mem_cons.mp hm with rfl | hm'
      · exact absurd hname (by simp)
      · rcases List.mem_append.mp hm' with hm'' | hrest
        · rcases List.mem_append.mp hm'' with honl | hlea
          · by_cases h1 : 0 < d.OnlineTime
            · rw [if_pos h1] at honl
              rcases List.mem_singleton.mp honl with rfl
              exact h1
            · rw [if_neg h1] at honl
              exact absurd honl (List.not_mem_nil _)
          · by_cases h2 : 0 < d.LeaseRemain
            · rw [if_pos h2] at hlea
              rcases List.mem_singleton.mp hlea with rfl
              exact absurd hname (by simp)
            · rw [if_neg h2] at hlea
              exact absurd hlea (List.not_mem_nil _)
        · exact ih5 m hrest hname
    · intro m hm hname
      rcases List.mem_cons.mp hm with rfl | hm'
      · exact absurd hname (by simp)
      · rcases List.mem_append.mp hm' with hm'' | hrest
        · rcases List.mem_append.mp hm'' with honl | hlea
          · by_cases h1 : 0 < d.OnlineTime
            · rw [if_pos h1] at honl
              rcases List.mem_singleton.mp honl with rfl
              exact absurd hname (by simp)
            · rw [if_neg h1] at honl
              exact absurd honl (List.not_mem_nil _)
          · by_cases h2 : 0 < d.LeaseRemain
            · rw [if_pos h2] at hlea
              rcases List.mem_singleton.mp hlea with rfl
              exact h2
            · rw [if_neg h2] at hlea
              exact absurd hlea (List.not_mem_nil _)
        · exact ih6 m hrest hname

/-- Two concrete devices: one online-only, one lease-only. -/
def devC10 : List ConnectedDevice :=
  [{ Hostname := "a", IP := "1.1", MAC := "m1", OnlineTime := 5, LeaseRemain := 0 },
   { Hostname := "b", IP := "2.2", MAC := "m2", OnlineTime := 0, LeaseRemain := 7 }]

/-- Witness for C10 at `devC10`: two info samples, one online sample,
one lease sample; the first device's info sample is present and the
concrete online sample's value is positive. -/
theorem device_collect_conditional_samples_witness :
    ((deviceCollect devC10).countP (fun m => m.name == "openwrt_device_info") =
      devC10.length) ∧
    ((deviceCollect devC10).countP (fun m => m.name == "openwrt_device_online_seconds") =
      devC10.countP (fun d => decide (0 < d.OnlineTime))) ∧
    (({ name := "openwrt_device_info", value := 1, labels := ["a", "1.1", "m1"] } : Metric) ∈
      deviceCollect devC10) ∧
    (0 < ({ name := "openwrt_device_online_seconds", value := 5,
            labels := ["a", "1.1", "m1"] } : Metric).value) :=
  ⟨(device_collect_conditional_samples devC10).1,
   (device_collect_conditional_samples devC10).2.1,
   (device_collect_conditional_samples devC10).2.2.2.1
     { Hostname := "a", IP := "1.1", MAC := "m1", OnlineTime := 5, LeaseRemain := 0 }
     (by decide),
   (device_collect_conditional_samples devC10).2.2.2.2.1
     { name := "openwrt_device_online_seconds", value := 5, labels := ["a", "1.1", "m1"] }
     (by decide) rfl⟩

end OpenWRT

namespace OpenWRT

/-! ## Device map merge (`getConnectedDevices`, unnamed part_000)

The Go code merges DHCP- and ARP-derived device lists into a map keyed
by `mac + "|" + ip`; the map is modelled as an association list in
insertion order (Go map iteration order is unspecified, so all claims
below are order-independent). -/

/-- A Go `error` value, identified by its message. -/
structure GoError where
  msg : String
deriving DecidableEq, Repr

/-- The composite key `d.MAC + "|" + d.IP` used by
`getConnectedDevices`. -/
def devKey (d : ConnectedDevice) : String :=
  d.MAC ++ "|" ++ d.IP

/-- The device map as an association list. -/
abbrev DevMap := List (String × ConnectedDevice)

/-- Go `_, ok := devices[key]`. -/
def mapHas (m : DevMap) (k : String) : Bool :=
  m.any (fun p => p.1 == k)

/-- Go `devices[key] = d`: overwrite in place or append. -/
def mapSet (m : DevMap) (k : String) (v : ConnectedDevice) : DevMap :=
  if mapHas m k then m.map (fun p => if p.1 == k then (k, v) else p)
  else m ++ [(k, v)]

/-- The DHCP loop body of `getConnectedDevices`: unconditional store. -/
def insertDHCP (m : DevMap) (d : ConnectedDevice) : DevMap :=
  mapSet m (devKey d) d

/-- The ARP loop body of `getConnectedDevices`: store only when the key
is absent. -/
def insertARP (m : DevMap) (d : ConnectedDevice) : DevMap :=
  if mapHas m (devKey d) then m else m ++ [(devKey d, d)]

/-- `getConnectedDevices` over the two fetch results: a failed DHCP or
ARP read is logged and skipped (the function itself never fails); the
final device list keeps entries with a non-empty IP or MAC. -/
def getConnectedDevices (dhcpRes arpRes : Except GoError (List ConnectedDevice)) :
    List ConnectedDevice :=
  let m1 : DevMap :=
    match dhcpRes with
    | .error _ => []
    | .ok ds => ds.foldl insertDHCP []
  let m2 : DevMap :=
    match arpRes with
    | .error _ => m1
    | .ok as => as.foldl insertARP m1
  (m2.map Prod.snd).filter (fun d => d.IP != "" || d.MAC != "")

/-- The entries of `m` stored under key `k`. -/
def entriesAt (m : DevMap) (k : String) : DevMap :=
  m.filter (fun p => p.1 == k)

/-- A key with no entries is absent. -/
theorem mapHas_eq_false_of_entriesAt_nil {m : DevMap} {k : String}
    (h : entriesAt m k = []) : mapHas m k = false := by
  rw [mapHas, ← Bool.not_eq_true, List.any_eq_true]
  rintro ⟨p, hp, hpk⟩
  have : p ∈ entriesAt m k := List.mem_filter.mpr ⟨hp, hpk⟩
  rw [h] at this
  exact List.not_mem_nil _ this

/-- A key with an entry is present. -/
theorem mapHas_eq_true_of_mem {m : DevMap} {p : String × ConnectedDevice}
    (hp : p ∈ m) (hk : p.1 = k) : mapHas m k = true :=
  List.any_eq_true.mpr ⟨p, hp, by simp [hk]⟩

/-- `mapHas` is monotone under appending entries. -/
theorem mapHas_append_left {m : DevMap} (l : DevMap) {k : String}
    (h : mapHas m k = true) : mapHas (m ++ l) k = true := by
  rw [mapHas] at h
  rw [mapHas, List.any_append, h, Bool.true_or]

/-- Replacing the value stored under a different key leaves the entries
at `k` unchanged. -/
theorem entriesAt_map_replace {m : DevMap} {k k' : String} (v : ConnectedDevice)
    (h : k' ≠ k) :
    entriesAt (m.map (fun p => if p.1 == k' then (k', v) else p)) k = entriesAt m k := by
  induction m with
  | nil => rfl
  | cons p ps ih =>
    simp only [entriesAt] at ih
    by_cases hp : p.1 = k'
    · simp [entriesAt, List.filter_cons, hp, h, Ne.symm h] at ih ⊢
      exact ih
    · by_cases hc : p.1 = k
      · simp [entriesAt, List.filter_cons, hp, hc, Ne.symm h] at ih ⊢
        exact ih
      · simp [entriesAt, List.filter_cons, hp, hc, Ne.symm h] at ih ⊢
        exact ih

/-- `insertDHCP` of a device with a different key leaves the entries at
`k` unchanged. -/
theorem entriesAt_insertDHCP_ne {m : DevMap} {d : ConnectedDevice} {k : String}
    (h : devKey d ≠ k) : entriesAt (insertDHCP m d) k = entriesAt m k := by
  rw [insertDHCP, mapSet]
  by_cases hm : mapHas m (devKey d)
  · rw [if_pos hm]
    exact entriesAt_map_replace d h
  · rw [if_neg hm, entriesAt, List.filter_append]
    have : ((devKey d : String) == k) = false := by simp [h]
    simp [entriesAt, this]

/-- Folding DHCP devices none of which has key `k` leaves the entries
at `k` unchanged. -/
theorem entriesAt_foldl_insertDHCP_ne {ds : List ConnectedDevice} {k : String}
    (h : ∀ x ∈ ds, devKey x ≠ k) (m : DevMap) :
    entriesAt (ds.foldl insertDHCP m) k = entriesAt m k := by
  induction ds generalizing m with
  | nil => rfl
  | cons x xs ih =>
    rw [List.foldl_cons, ih (fun y hy => h y (List.mem_cons_of_mem _ hy))]
    exact entriesAt_insertDHCP_ne (h x (List.mem_cons_self _ _))

/-- `insertARP` preserves presence of `k` and, when `k` is present,
the entries at `k`. -/
theorem entriesAt_insertARP {m : DevMap} {a : ConnectedDevice} {k : String}
    (h : mapHas m k = true) :
    entriesAt (insertARP m a) k = entriesAt m k ∧ mapHas (insertARP m a) k = true := by
  rw [insertARP]
  by_cases hm : mapHas m (devKey a)
  · rw [if_pos hm]
    exact ⟨rfl, h⟩
  · rw [if_neg hm]
    constructor
    · rw [entriesAt, List.filter_append]
      have hne : devKey a ≠ k := by
        rintro rfl
        exact hm h
      have : ((devKey a : String) == k) = false := by simp [hne]
      simp [entriesAt, this]
    · exact mapHas_append_left _ h

/-- Folding ARP devices over a map already containing `k` leaves the
entries at `k` unchanged. -/
theorem entriesAt_foldl_insertARP {as : List ConnectedDevice} {k : String}
    (m : DevMap) (h : mapHas m k = true) :
    entriesAt (as.foldl insertARP m) k = entriesAt m k := by
  induction as generalizing m with
  | nil => rfl
  | cons a xs ih =>
    rw [List.foldl_cons]
    obtain ⟨h1, h2⟩ := entriesAt_insertARP (a := a) h
    rw [ih _ h2, h1]

/-- Key/value coherence: every stored entry's key is its value's
`devKey`. -/
def KeyCoherent (m : DevMap) : Prop :=
  ∀ p ∈ m, devKey p.2 = p.1

/-- `insertDHCP` preserves key/value coherence. -/
theorem keyCoherent_insertDHCP {m : DevMap} (d : ConnectedDevice)
    (h : KeyCoherent m) : KeyCoherent (insertDHCP m d) := by
  rw [insertDHCP, mapSet]
  by_cases hm : mapHas m (devKey d)
  · rw [if_pos hm]
    intro p hp
    obtain ⟨q, hq, hqp⟩ := List.mem_map.mp hp
    by_cases hq1 : q.1 = devKey d
    · simp only [show (q.1 == devKey d) = true by simp [hq1], if_true] at hqp
      rw [← hqp]
    · simp only [show (q.1 == devKey d) = false by simp [hq1], Bool.false_eq_true,
        if_false] at hqp
      rw [← hqp]
      exact h q hq
  · rw [if_neg hm]
    intro p hp
    rcases List.mem_append.mp hp with hp' | hp'
    · exact h p hp'
    · rcases List.mem_singleton.mp hp' with rfl
      rfl

/-- `insertARP` preserves key/value coherence. -/
theorem keyCoherent_insertARP {m : DevMap} (a : ConnectedDevice)
    (h : KeyCoherent m) : KeyCoherent (insertARP m a) := by
  rw [insertARP]
  by_cases hm : mapHas m (devKey a)
  · rw [if_pos hm]
    exact h
  · rw [if_neg hm]
    intro p hp
    rcases List.mem_append.mp hp with hp' | hp'
    · exact h p hp'
    · rcases List.mem_singleton.mp hp' with rfl
      rfl

/-- Folds of either insert preserve key/value coherence. -/
theorem keyCoherent_foldl_insertDHCP {ds : List ConnectedDevice} (m : DevMap)
    (h : KeyCoherent m) : KeyCoherent (ds.foldl insertDHCP m) := by
  induction ds generalizing m with
  | nil => exact h
  | cons x xs ih => exact ih _ (keyCoherent_insertDHCP x h)

/-- Folds of `insertARP` preserve key/value coherence. -/
theorem keyCoherent_foldl_insertARP {as : List ConnectedDevice} (m : DevMap)
    (h : KeyCoherent m) : KeyCoherent (as.foldl insertARP m) := by
  induction as generalizing m with
  | nil => exact h
  | cons x xs ih => exact ih _ (keyCoherent_insertARP x h)

end OpenWRT

namespace OpenWRT

/-- C6: when a `(mac, ip)` key occurs (once) in the DHCP list and also
in the ARP list, the merged output of `getConnectedDevices` contains
exactly one device with that key, and it is the DHCP-sourced record
(hostname and lease fields included); the ARP-sourced duplicate is
discarded. -/
theorem device_dedup_dhcp_precedence
    (dhcpList arpList : List ConnectedDevice) (d a : ConnectedDevice) (k : String)
    (hk : devKey d = k) (hd : d ∈ dhcpList)
    (huniq : dhcpList.countP (fun x => devKey x == k) = 1)
    (ha : a ∈ arpList) (hak : devKey a = k)
    (hnz : (d.IP != "" || d.MAC != "") = true) :
    d ∈ getConnectedDevices (.ok dhcpList) (.ok arpList) ∧
    (getConnectedDevices (.ok dhcpList) (.ok arpList)).countP (fun x => devKey x == k) = 1 ∧
    (∀ x ∈ getConnectedDevices (.ok dhcpList) (.ok arpList), devKey x = k → x = d) := by
  obtain ⟨l1, l2, rfl⟩ := List.append_of_mem hd
  -- the unique occurrence of key k in the DHCP list is d
  have hz : l1.countP (fun x => devKey x == k) = 0 ∧
      l2.countP (fun x => devKey x == k) = 0 := by
    have h := huniq
    simp [List.countP_append, List.countP_cons, hk] at h
    omega
  have h1 : ∀ x ∈ l1, devKey x ≠ k := by
    intro x hx
    have := List.countP_eq_zero.mp hz.1 x hx
    simpa using this
  have h2 : ∀ x ∈ l2, devKey x ≠ k := by
    intro x hx
    have := List.countP_eq_zero.mp hz.2 x hx
    simpa using this
  -- the device map after the DHCP fold holds exactly the entry (k, d)
  have hm : (l1 ++ d :: l2).foldl insertDHCP ([] : DevMap) =
      l2.foldl insertDHCP (insertDHCP (l1.foldl insertDHCP []) d) := by
    rw [List.foldl_append, List.foldl_cons]
  have eA : entriesAt (l1.foldl insertDHCP ([] : DevMap)) k = [] :=
    entriesAt_foldl_insertDHCP_ne h1 []
  have hasA : mapHas (l1.foldl insertDHCP ([] : DevMap)) k = false :=
    mapHas_eq_false_of_entriesAt_nil eA
  have eB : entriesAt (insertDHCP (l1.foldl insertDHCP []) d) k = [(k, d)] := by
    rw [insertDHCP, hk, mapSet, hasA]
    simp only [Bool.false_eq_true, if_false]
    rw [entriesAt, List.filter_append]
    rw [entriesAt] at eA
    rw [eA]
    simp
  have eC : entriesAt ((l1 ++ d :: l2).foldl insertDHCP ([] : DevMap)) k = [(k, d)] := by
    rw [hm, entriesAt_foldl_insertDHCP_ne h2, eB]
  have hmemC : (k, d) ∈ (l1 ++ d :: l2).foldl insertDHCP ([] : DevMap) :=
    List.mem_of_mem_filter (by rw [entriesAt] at eC; rw [eC]; exact List.mem_singleton_self _)
  have hasC : mapHas ((l1 ++ d :: l2).foldl insertDHCP ([] : DevMap)) k = true :=
    mapHas_eq_true_of_mem hmemC rfl
  -- the ARP fold leaves the entry untouched
  have eD : entriesAt (arpList.foldl insertARP ((l1 ++ d :: l2).foldl insertDHCP [])) k =
      [(k, d)] := by
    rw [entriesAt_foldl_insertARP _ hasC, eC]
  have coh : KeyCoherent (arpList.foldl insertARP ((l1 ++ d :: l2).foldl insertDHCP [])) :=
    keyCoherent_foldl_insertARP _
      (keyCoherent_foldl_insertDHCP _ (fun p hp => absurd hp (List.not_mem_nil p)))
  set m2 := arpList.foldl insertARP ((l1 ++ d :: l2).foldl insertDHCP []) with hm2
  have hmem2 : (k, d) ∈ m2 :=
    List.mem_of_mem_filter (by rw [entriesAt] at eD; rw [eD]; exact List.mem_singleton_self _)
  -- facts about the value list
  have hdval : d ∈ m2.map Prod.snd := List.mem_map.mpr ⟨(k, d), hmem2, rfl⟩
  have huval : ∀ x ∈ m2.map Prod.snd, devKey x = k → x = d := by
    intro x hx hxk
    obtain ⟨p, hp, rfl⟩ := List.mem_map.mp hx
    have hp1 : p.1 = k := by rw [← coh p hp, hxk]
    have : p ∈ entriesAt m2 k := List.mem_filter.mpr ⟨hp, by simp [hp1]⟩
    rw [eD] at this
    rw [List.mem_singleton.mp this]
  have hcval : (m2.map Prod.snd).countP (fun x => devKey x == k) = 1 := by
    rw [List.countP_map]
    have : m2.countP ((fun x => devKey x == k) ∘ Prod.snd) =
        m2.countP (fun p => p.1 == k) := by
      apply List.countP_congr
      intro p hp
      simp [Function.comp, coh p hp]
    rw [this, List.countP_eq_length_filter]
    rw [entriesAt] at eD
    rw [eD]
    rfl
  -- the final filter
  have hres : getConnectedDevices (.ok (l1 ++ d :: l2)) (.ok arpList) =
      (m2.map Prod.snd).filter (fun x => x.IP != "" || x.MAC != "") := rfl
  refine ⟨?_, ?_, ?_⟩
  · rw [hres]
    exact List.mem_filter.mpr ⟨hdval, hnz⟩
  · rw [hres, List.countP_filter]
    have : (m2.map Prod.snd).countP
        (fun x => (devKey x == k) && (x.IP != "" || x.MAC != "")) =
        (m2.map Prod.snd).countP (fun x => devKey x == k) := by
      apply List.countP_congr
      intro x hx
      constructor
      · intro hb
        exact (Bool.and_eq_true _ _ |>.mp hb).1
      · intro hb
        have hxk : devKey x = k := by simpa using hb
        have : x = d := huval x hx hxk
        subst this
        simp [hb, hnz]
      -- &&-introduction via the uniqueness of the key-k value
    rw [this, hcval]
  · intro x hx hxk
    rw [hres] at hx
    exact huval x (List.mem_of_mem_filter hx) hxk

end OpenWRT

namespace OpenWRT

/-- Concrete DHCP-sourced device for the C6 witness. -/
def dhcpDevC6 : ConnectedDevice :=
  { Hostname := "my-phone", IP := "192.168.1.50", MAC := "aa:bb:cc:dd:ee:ff",
    OnlineTime := 0, LeaseRemain := 1000 }

/-- Concrete ARP-sourced duplicate (same mac and ip, no hostname). -/
def arpDevC6 : ConnectedDevice :=
  { Hostname := "", IP := "192.168.1.50", MAC := "aa:bb:cc:dd:ee:ff",
    OnlineTime := 0, LeaseRemain := 0 }

/-- Witness for C6: with the key present in both one-element lists, the
merged output contains the DHCP record and exactly one device with that
key. -/
theorem device_dedup_dhcp_precedence_witness :
    dhcpDevC6 ∈ getConnectedDevices (.ok [dhcpDevC6]) (.ok [arpDevC6]) ∧
    (getConnectedDevices (.ok [dhcpDevC6]) (.ok [arpDevC6])).countP
      (fun x => devKey x == "aa:bb:cc:dd:ee:ff|192.168.1.50") = 1 := by
  have h := device_dedup_dhcp_precedence [dhcpDevC6] [arpDevC6] dhcpDevC6 arpDevC6
    "aa:bb:cc:dd:ee:ff|192.168.1.50" (by decide) (by decide) (by decide) (by decide)
    (by decide) (by decide)
  exact ⟨h.1, h.2.1⟩

/-! ## Snapshot sources and the collector registry

`NetworkCollector.Collect`, `DeviceCollector.Collect` and
`UPnPCollector.Collect` with their I/O reads passed in as `Except`
values; the prometheus registry concatenates the three sample streams. -/

/-- `NetworkInterface` from collector/network.go. -/
structure NetworkInterface where
  Name : String
  RxBytes : Nat
  TxBytes : Nat
  RxPackets : Nat
  TxPackets : Nat
deriving DecidableEq, Repr

/-- The per-interface emission loop of `NetworkCollector.Collect`
(`uptime` is the value `getInterfaceUptime` reads from `/proc/uptime`). -/
def networkSamples (uptime : ℚ) : List NetworkInterface → List Metric
  | [] => []
  | i :: is =>
    { name := "openwrt_network_receive_bytes_total", value := (i.RxBytes : ℚ),
      labels := [i.Name] } ::
    { name := "openwrt_network_transmit_bytes_total", value := (i.TxBytes : ℚ),
      labels := [i.Name] } ::
    { name := "openwrt_network_receive_packets_total", value := (i.RxPackets : ℚ),
      labels := [i.Name] } ::
    { name := "openwrt_network_transmit_packets_total", value := (i.TxPackets : ℚ),
      labels := [i.Name] } ::
    { name := "openwrt_network_uptime_seconds", value := uptime, labels := [i.Name] } ::
    networkSamples uptime is

/-- `NetworkCollector.Collect`: a failed `getNetworkInterfaces` is
logged and yields no samples. -/
def networkCollect (fetch : Except GoError (List NetworkInterface)) (uptime : ℚ) :
    List Metric :=
  match fetch with
  | .error _ => []
  | .ok ifaces => networkSamples uptime ifaces

/-- The per-mapping emission loop of `UPnPCollector.Collect`. -/
def upnpSamples : List UPnPMapping → List Metric
  | [] => []
  | m :: ms =>
    { name := "openwrt_upnp_mapping_info", value := 1,
      labels := [m.Protocol, m.ExternalPort, m.InternalIP, m.InternalPort, m.Description] } ::
    { name := "openwrt_upnp_mapping_lease_seconds", value := m.LeaseSeconds,
      labels := [m.Protocol, m.ExternalPort, m.InternalIP, m.InternalPort, m.Description] } ::
    upnpSamples ms

/-- `UPnPCollector.Collect`: a failed `getUPnPMappings` is logged and
yields no samples (not even the count gauge). -/
def upnpCollect (fetch : Except GoError (List UPnPMapping)) : List Metric :=
  match fetch with
  | .error _ => []
  | .ok mappings =>
    { name := "openwrt_upnp_mapping_count", value := (mappings.length : ℚ), labels := [] } ::
    upnpSamples mappings

/-- The raw inputs one scrape may read, one field per snapshot source. -/
structure ScrapeEnv where
  netFetch : Except GoError (List NetworkInterface)
  uptime : ℚ
  dhcpFetch : Except GoError (List ConnectedDevice)
  arpFetch : Except GoError (List ConnectedDevice)
  upnpFetch : Except GoError (List UPnPMapping)

/-- The prometheus registry's scrape: every registered collector's
`Collect` runs and the sample streams are concatenated in registration
order (network, device, upnp). -/
def registryCollect (env : ScrapeEnv) : List Metric :=
  networkCollect env.netFetch env.uptime ++
  deviceCollect (getConnectedDevices env.dhcpFetch env.arpFetch) ++
  upnpCollect env.upnpFetch

end OpenWRT

namespace OpenWRT

/-- C3: no snapshot source's collect propagates an error — a failed
read degrades to an empty sample sequence (for the device source, even
both reads failing), and degrading one source leaves every other
source's portion of the registry's scrape unchanged. -/
theorem collect_never_fatal_and_isolated (env : ScrapeEnv) :
    (∀ e : GoError, ∀ uptime : ℚ, networkCollect (.error e) uptime = []) ∧
    (∀ e : GoError, upnpCollect (.error e) = []) ∧
    (∀ e e' : GoError, deviceCollect (getConnectedDevices (.error e) (.error e')) = []) ∧
    (∀ e : GoError, registryCollect { env with netFetch := .error e } =
      deviceCollect (getConnectedDevices env.dhcpFetch env.arpFetch) ++
      upnpCollect env.upnpFetch) ∧
    (∀ e : GoError, registryCollect { env with upnpFetch := .error e } =
      networkCollect env.netFetch env.uptime ++
      deviceCollect (getConnectedDevices env.dhcpFetch env.arpFetch)) ∧
    (∀ e e' : GoError,
      registryCollect { env with dhcpFetch := .error e, arpFetch := .error e' } =
      networkCollect env.netFetch env.uptime ++ upnpCollect env.upnpFetch) := by
  refine ⟨fun e uptime => rfl, fun e => rfl, fun e e' => rfl, fun e => rfl, fun e => ?_,
    fun e e' => ?_⟩
  · show networkCollect env.netFetch env.uptime ++
      deviceCollect (getConnectedDevices env.dhcpFetch env.arpFetch) ++ [] = _
    rw [List.append_nil]
  · show networkCollect env.netFetch env.uptime ++ [] ++ upnpCollect env.upnpFetch = _
    rw [List.append_nil]

/-- A concrete scrape environment with every read succeeding. -/
def envC3 : ScrapeEnv :=
  { netFetch := .ok [{ Name := "eth0", RxBytes := 100, TxBytes := 200,
                       RxPackets := 3, TxPackets := 4 }],
    uptime := 12,
    dhcpFetch := .ok [dhcpDevC6],
    arpFetch := .ok [],
    upnpFetch := .ok [{ Protocol := "TCP", ExternalPort := "8080",
                        InternalIP := "192.168.1.2", InternalPort := "80",
                        LeaseSeconds := 3600, Description := "web" }] }

/-- Witness for C3 at `envC3`: degrading the network read leaves the
device and UPnP portions unchanged, and a totally failed UPnP read
yields no samples. -/
theorem collect_never_fatal_and_isolated_witness :
    (networkCollect (.error { msg := "open /proc/net/dev: no such file" }) 12 = []) ∧
    (upnpCollect (.error { msg := "no leases file" }) = []) ∧
    (registryCollect { envC3 with netFetch := .error { msg := "boom" } } =
      deviceCollect (getConnectedDevices envC3.dhcpFetch envC3.arpFetch) ++
      upnpCollect envC3.upnpFetch) := by
  have h := collect_never_fatal_and_isolated envC3
  exact ⟨h.1 { msg := "open /proc/net/dev: no such file" } 12,
         h.2.1 { msg := "no leases file" },
         h.2.2.2.1 { msg := "boom" }⟩

end OpenWRT

namespace OpenWRT

/-! ## Ping statistics and result construction (`pingTarget`, collector/ping.go) -/

/-- `PingResult` from collector/ping.go. -/
structure PingResult where
  MinLatencyMs : ℚ
  MaxLatencyMs : ℚ
  AvgLatencyMs : ℚ
  PacketLoss : ℚ
  IP : String
  IPType : String
deriving DecidableEq, Repr

/-- The aggregate statistics `pinger.Statistics()` returns; round-trip
times in integer nanoseconds. -/
structure PingStatistics where
  packetLoss : ℚ
  minRtt : Nat
  maxRtt : Nat
  avgRtt : Nat
deriving DecidableEq, Repr

/-- Modelled from the spec: the pro-bing library's `Statistics()` (the
library is an external dependency, not in src/).  Per the spec,
`packet_loss = (count − received)/count × 100` and min/avg/max are
computed from the round-trip latencies of received replies only, with
a zero floor when no reply arrived. -/
def pingStats (count : Nat) (rtts : List Nat) : PingStatistics :=
  let recv := rtts.length
  { packetLoss := ((count : ℚ) - (recv : ℚ)) / (count : ℚ) * 100,
    minRtt := match rtts with | [] => 0 | r :: rs => rs.foldl Nat.min r,
    maxRtt := match rtts with | [] => 0 | r :: rs => rs.foldl Nat.max r,
    avgRtt := if recv = 0 then 0 else rtts.sum / recv }

/-- Go `time.Duration.Microseconds()`: nanoseconds truncated to
microseconds. -/
def durMicro (ns : Nat) : Nat := ns / 1000

/-- The `PingResult` construction at the end of `pingTarget`: each
latency is the statistic's microsecond count divided by 1000.0
(fractional milliseconds). -/
def mkPingResult (stats : PingStatistics) (ip ipt : String) : PingResult :=
  { PacketLoss := stats.packetLoss,
    MinLatencyMs := (durMicro stats.minRtt : ℚ) / 1000,
    MaxLatencyMs := (durMicro stats.maxRtt : ℚ) / 1000,
    AvgLatencyMs := (durMicro stats.avgRtt : ℚ) / 1000,
    IP := ip, IPType := ipt }

/-- C5: for a successful probe over `count` sent packets and the
received round-trip times `rtts`, the reported latencies are exactly
the aggregated round-trip statistics taken at microsecond precision and
divided by 1000, packet loss lies in [0, 100], and 100% loss forces all
three latencies to 0 (a floor, not an error). -/
theorem ping_result_stats (count : Nat) (rtts : List Nat) (ip ipt : String)
    (hc : 0 < count) (hr : rtts.length ≤ count) :
    (0 ≤ (mkPingResult (pingStats count rtts) ip ipt).PacketLoss ∧
      (mkPingResult (pingStats count rtts) ip ipt).PacketLoss ≤ 100) ∧
    ((mkPingResult (pingStats count rtts) ip ipt).PacketLoss = 100 →
      (mkPingResult (pingStats count rtts) ip ipt).MinLatencyMs = 0 ∧
      (mkPingResult (pingStats count rtts) ip ipt).AvgLatencyMs = 0 ∧
      (mkPingResult (pingStats count rtts) ip ipt).MaxLatencyMs = 0) ∧
    (mkPingResult (pingStats count rtts) ip ipt).MinLatencyMs =
      (durMicro (pingStats count rtts).minRtt : ℚ) / 1000 ∧
    (mkPingResult (pingStats count rtts) ip ipt).AvgLatencyMs =
      (durMicro (pingStats count rtts).avgRtt : ℚ) / 1000 ∧
    (mkPingResult (pingStats count rtts) ip ipt).MaxLatencyMs =
      (durMicro (pingStats count rtts).maxRtt : ℚ) / 1000 := by
  have hcq : (0 : ℚ) < (count : ℚ) := by exact_mod_cast hc
  have hrq : ((rtts.length : ℚ)) ≤ (count : ℚ) := by exact_mod_cast hr
  have hl0 : (0 : ℚ) ≤ ((count : ℚ) - (rtts.length : ℚ)) / (count : ℚ) * 100 := by
    have h1 : (0 : ℚ) ≤ (count : ℚ) - (rtts.length : ℚ) := by linarith
    have h2 : (0 : ℚ) ≤ ((count : ℚ) - (rtts.length : ℚ)) / (count : ℚ) :=
      div_nonneg h1 (le_of_lt hcq)
    linarith
  have hl100 : ((count : ℚ) - (rtts.length : ℚ)) / (count : ℚ) * 100 ≤ 100 := by
    have h1 : ((count : ℚ) - (rtts.length : ℚ)) / (count : ℚ) ≤ 1 := by
      rw [div_le_one hcq]
      have : (0 : ℚ) ≤ (rtts.length : ℚ) := by positivity
      linarith
    linarith
  refine ⟨⟨hl0, hl100⟩, ?_, rfl, rfl, rfl⟩
  intro h100
  have hrec : rtts.length = 0 := by
    have h : ((count : ℚ) - (rtts.length : ℚ)) / (count : ℚ) * 100 = 100 := h100
    have hne : (count : ℚ) ≠ 0 := ne_of_gt hcq
    field_simp at h
    have : (rtts.length : ℚ) = 0 := by linarith
    exact_mod_cast this
  have hnil : rtts = [] := List.length_eq_zero.mp hrec
  subst hnil
  norm_num [mkPingResult, pingStats, durMicro]

/-- Witness for C5 at `count = 4`, no replies: 100% loss and zero
latencies. -/
theorem ping_result_stats_witness :
    ((0 ≤ (mkPingResult (pingStats 4 []) "1.2.3.4" "IPv4").PacketLoss ∧
      (mkPingResult (pingStats 4 []) "1.2.3.4" "IPv4").PacketLoss ≤ 100) ∧
    ((mkPingResult (pingStats 4 []) "1.2.3.4" "IPv4").PacketLoss = 100 →
      (mkPingResult (pingStats 4 []) "1.2.3.4" "IPv4").MinLatencyMs = 0 ∧
      (mkPingResult (pingStats 4 []) "1.2.3.4" "IPv4").AvgLatencyMs = 0 ∧
      (mkPingResult (pingStats 4 []) "1.2.3.4" "IPv4").MaxLatencyMs = 0) ∧
    (mkPingResult (pingStats 4 []) "1.2.3.4" "IPv4").MinLatencyMs =
      (durMicro (pingStats 4 []).minRtt : ℚ) / 1000 ∧
    (mkPingResult (pingStats 4 []) "1.2.3.4" "IPv4").AvgLatencyMs =
      (durMicro (pingStats 4 []).avgRtt : ℚ) / 1000 ∧
    (mkPingResult (pingStats 4 []) "1.2.3.4" "IPv4").MaxLatencyMs =
      (durMicro (pingStats 4 []).maxRtt : ℚ) / 1000) ∧
    (mkPingResult (pingStats 4 []) "1.2.3.4" "IPv4").PacketLoss = 100 :=
  ⟨ping_result_stats 4 [] "1.2.3.4" "IPv4" (by decide) (by decide),
   by norm_num [mkPingResult, pingStats]⟩

end OpenWRT

namespace OpenWRT

/-! ## The probe dispatcher (`PingCollector.Collect`, collector/ping.go)

The worker pool is modelled as a labelled transition system: `pull`
moves the head of the task queue to an in-flight slot (the task channel
hands each target to exactly one worker, and at most `W` workers hold a
target at a time); `finish i` completes an in-flight probe, appending
its result to the result stream.  Any interleaving of worker steps is a
schedule; the claims hold for every schedule that drains the queue. -/

/-- Classified errors `pingTarget` can return. -/
inductive PingError where
  | lookupFailed (msg : String)
  | addrNotFound (msg : String) (host : String)
  | pingerFailed (msg : String)
  | runFailed (msg : String)
deriving DecidableEq, Repr

/-- A resolved IP address: its string form and the outcomes of Go's
`ip.To4() != nil` and `ip.To16() != nil` tests. -/
structure IPAddr where
  str : String
  is4 : Bool
  is16 : Bool
deriving DecidableEq, Repr

/-- The network environment `pingTarget` runs against: DNS lookup,
raw-socket pinger creation, and the probe run returning the round-trip
times (in nanoseconds) of the received replies. -/
structure PingEnv where
  lookupIP : String → Except GoError (List IPAddr)
  newPinger : String → Except GoError Unit
  runPing : String → Except GoError (List Nat)

/-- The `string(target.IPType)` conversion. -/
def IPType.toStr : IPType → String
  | .IPv4 => "IPv4"
  | .IPv6 => "IPv6"

/-- `pingTarget` from collector/ping.go: resolve the host, take the
first address of the requested family (the error message is the
verbatim `"no IPv6 address found"` for either family), create the
privileged pinger, run it, and build the result from the statistics. -/
def pingTarget (env : PingEnv) (target : PingTarget) (config : PingConfig) :
    Except PingError PingResult :=
  match env.lookupIP target.Host with
  | .error e => .error (.lookupFailed e.msg)
  | .ok ips =>
    let resolved? : Option IPAddr :=
      match target.IPType with
      | .IPv4 => ips.find? (fun ip => ip.is4)
      | .IPv6 => ips.find? (fun ip => !ip.is4 && ip.is16)
    match resolved? with
    | none => .error (.addrNotFound "no IPv6 address found" target.Host)
    | some resolvedIP =>
      match env.newPinger resolvedIP.str with
      | .error e => .error (.pingerFailed e.msg)
      | .ok _ =>
        match env.runPing resolvedIP.str with
        | .error e => .error (.runFailed e.msg)
        | .ok rtts =>
          .ok (mkPingResult (pingStats config.Count.toNat rtts) resolvedIP.str
            target.IPType.toStr)

/-- Equality of `Except` values is decidable when it is on both sides. -/
instance exceptDecEq {ε α : Type} [DecidableEq ε] [DecidableEq α] :
    DecidableEq (Except ε α) := fun x y =>
  match x, y with
  | .error a, .error b =>
    if h : a = b then .isTrue (by rw [h])
    else .isFalse (by intro hh; cases hh; exact h rfl)
  | .ok a, .ok b =>
    if h : a = b then .isTrue (by rw [h])
    else .isFalse (by intro hh; cases hh; exact h rfl)
  | .error _, .ok _ => .isFalse (by intro hh; cases hh)
  | .ok _, .error _ => .isFalse (by intro hh; cases hh)

/-- The dispatcher's shared state: the unread task channel, the targets
currently held by workers, and the emitted results. -/
structure DispatchState where
  queue : List PingTarget
  inflight : List PingTarget
  results : List (PingTarget × Except PingError PingResult)
deriving DecidableEq, Repr

/-- One scheduler step: a worker pulls the next task, or the worker
holding in-flight slot `i` finishes its probe. -/
inductive DispatchAction where
  | pull
  | finish (i : Nat)
deriving DecidableEq, Repr

/-- The transition function.  `pull` requires a non-empty queue and a
free worker (fewer than `W` targets in flight); `finish i` requires an
occupied slot `i` and emits that target's result. -/
def dispatchStep (probe : PingTarget → Except PingError PingResult) (W : Nat)
    (s : DispatchState) : DispatchAction → Option DispatchState
  | .pull =>
    match s.queue with
    | [] => none
    | t :: q =>
      if s.inflight.length < W then some ⟨q, t :: s.inflight, s.results⟩ else none
  | .finish i =>
    match s.inflight[i]? with
    | none => none
    | some t => some ⟨s.queue, s.inflight.eraseIdx i, (t, probe t) :: s.results⟩

/-- Run a schedule of steps from a state. -/
def dispatchRun (probe : PingTarget → Except PingError PingResult) (W : Nat) :
    DispatchState → List DispatchAction → Option DispatchState
  | s, [] => some s
  | s, a :: as =>
    match dispatchStep probe W s a with
    | none => none
    | some s' => dispatchRun probe W s' as

/-- The dispatcher's initial state: every configured target queued,
no worker busy, no result emitted. -/
def initState (targets : List PingTarget) : DispatchState :=
  ⟨targets, [], []⟩

/-- `workerCount` from `PingCollector.Collect`: the configured
concurrency capped at the number of targets. -/
def workerCount (config : PingConfig) : Nat :=
  if config.Concurrency > (config.Targets.length : Int) then config.Targets.length
  else config.Concurrency.toNat

/-- An indexed element justifies a cons/eraseIdx permutation. -/
theorem perm_cons_eraseIdx {α : Type} :
    ∀ (l : List α) (i : Nat) (a : α), l[i]? = some a → l.Perm (a :: l.eraseIdx i)
  | [], i, a, h => by simp at h
  | x :: xs, 0, a, h => by
    simp only [List.getElem?_cons_zero, Option.some.injEq] at h
    subst h
    exact List.Perm.refl _
  | x :: xs, i + 1, a, h => by
    simp only [List.getElem?_cons_succ] at h
    have ih := perm_cons_eraseIdx xs i a h
    have h1 : (x :: xs).Perm (x :: a :: xs.eraseIdx i) := ih.cons x
    have h2 : (x :: a :: xs.eraseIdx i).Perm (a :: x :: xs.eraseIdx i) :=
      List.Perm.swap a x _
    simpa using h1.trans h2

/-- Moving the queue head into the in-flight set preserves the combined
multiset. -/
theorem perm_shuffle_pull {α : Type} (A I q : List α) (t : α) :
    (A ++ (t :: I) ++ q).Perm (A ++ I ++ (t :: q)) := by
  have h1 : A ++ (t :: I) ++ q = A ++ t :: (I ++ q) := by simp
  rw [h1]
  refine List.perm_middle.trans ?_
  rw [← List.append_assoc]
  exact List.perm_middle.symm

/-- Moving an in-flight target into the result stream preserves the
combined multiset. -/
theorem perm_shuffle_finish {α : Type} (A I E q : List α) (t : α)
    (h : I.Perm (t :: E)) : ((t :: A) ++ E ++ q).Perm (A ++ I ++ q) := by
  have h1 : (t :: A) ++ E ++ q = t :: (A ++ (E ++ q)) := by simp
  rw [h1]
  have h2 : (A ++ I ++ q).Perm (A ++ (t :: E) ++ q) :=
    (h.append_left A).append_right q
  refine List.Perm.trans ?_ h2.symm
  have h3 : A ++ (t :: E) ++ q = A ++ t :: (E ++ q) := by simp
  rw [h3]
  exact List.perm_middle.symm

/-- Each dispatcher step preserves the invariant: the emitted, in-flight
and queued targets together are a permutation of the configured
targets, and every emitted result is its own target's probe outcome. -/
theorem dispatchStep_inv {probe : PingTarget → Except PingError PingResult} {W : Nat}
    {targets : List PingTarget} {s s' : DispatchState} {a : DispatchAction}
    (hstep : dispatchStep probe W s a = some s')
    (hperm : (s.results.map Prod.fst ++ s.inflight ++ s.queue).Perm targets)
    (hres : ∀ p ∈ s.results, p.2 = probe p.1) :
    (s'.results.map Prod.fst ++ s'.inflight ++ s'.queue).Perm targets ∧
    (∀ p ∈ s'.results, p.2 = probe p.1) := by
  cases a with
  | pull =>
    cases hq : s.queue with
    | nil => simp [dispatchStep, hq] at hstep
    | cons t q =>
      by_cases hw : s.inflight.length < W
      · simp only [dispatchStep, hq, if_pos hw, Option.some.injEq] at hstep
        subst hstep
        rw [hq] at hperm
        exact ⟨(perm_shuffle_pull _ _ _ _).trans hperm, hres⟩
      · simp [dispatchStep, hq, if_neg hw] at hstep
  | finish i =>
    cases hi : s.inflight[i]? with
    | none => simp [dispatchStep, hi] at hstep
    | some t =>
      simp only [dispatchStep, hi, Option.some.injEq] at hstep
      subst hstep
      have hpc : s.inflight.Perm (t :: s.inflight.eraseIdx i) :=
        perm_cons_eraseIdx _ _ _ hi
      constructor
      · refine List.Perm.trans ?_ hperm
        simpa using perm_shuffle_finish (s.results.map Prod.fst) s.inflight
          (s.inflight.eraseIdx i) s.queue t hpc
      · intro p hp
        rcases List.mem_cons.mp hp with rfl | hp'
        · rfl
        · exact hres p hp'

/-- Running any schedule preserves the invariant. -/
theorem dispatchRun_inv {probe : PingTarget → Except PingError PingResult} {W : Nat}
    {targets : List PingTarget} (sched : List DispatchAction) (s s' : DispatchState)
    (hrun : dispatchRun probe W s sched = some s')
    (hperm : (s.results.map Prod.fst ++ s.inflight ++ s.queue).Perm targets)
    (hres : ∀ p ∈ s.results, p.2 = probe p.1) :
    (s'.results.map Prod.fst ++ s'.inflight ++ s'.queue).Perm targets ∧
    (∀ p ∈ s'.results, p.2 = probe p.1) := by
  induction sched generalizing s with
  | nil =>
    simp only [dispatchRun, Option.some.injEq] at hrun
    subst hrun
    exact ⟨hperm, hres⟩
  | cons a as ih =>
    cases hst : dispatchStep probe W s a with
    | none => simp [dispatchRun, hst] at hrun
    | some s1 =>
      simp only [dispatchRun, hst] at hrun
      obtain ⟨h1, h2⟩ := dispatchStep_inv hst hperm hres
      exact ih s1 hrun h1 h2

/-- A result list all of whose entries are probe outcomes is the image
of its own target list. -/
theorem results_eq_map_of_ok {probe : PingTarget → Except PingError PingResult} :
    ∀ (R : List (PingTarget × Except PingError PingResult)),
    (∀ p ∈ R, p.2 = probe p.1) →
    R = (R.map Prod.fst).map (fun t => (t, probe t))
  | [], _ => rfl
  | p :: ps, h => by
    have hp : p.2 = probe p.1 := h p (List.mem_cons_self _ _)
    have ih := results_eq_map_of_ok ps (fun q hq => h q (List.mem_cons_of_mem _ hq))
    simp only [List.map_cons]
    rw [← ih, ← hp]

end OpenWRT

namespace OpenWRT

/-- C1: for every target list, probe outcome function, worker bound and
schedule that drains the queue and the in-flight set, the dispatcher
emits exactly one result per target — the result multiset is a
permutation of the targets each paired with its own probe outcome, so
the result count equals the target count and each target is tagged
exactly as often as it was configured, regardless of which probes
fail. -/
theorem ping_dispatch_one_result_per_target (targets : List PingTarget)
    (probe : PingTarget → Except PingError PingResult) (W : Nat)
    (sched : List DispatchAction) (s : DispatchState)
    (hrun : dispatchRun probe W (initState targets) sched = some s)
    (hq : s.queue = []) (hi : s.inflight = []) :
    s.results.Perm (targets.map (fun t => (t, probe t))) ∧
    s.results.length = targets.length ∧
    (∀ t, s.results.countP (fun p => p.1 == t) = targets.countP (fun x => x == t)) := by
  have hinit1 : ((initState targets).results.map Prod.fst ++ (initState targets).inflight ++
      (initState targets).queue).Perm targets := by
    simpa [initState] using List.Perm.refl targets
  have hinit2 : ∀ p ∈ (initState targets).results, p.2 = probe p.1 := by
    simp [initState]
  obtain ⟨hperm, hres⟩ := dispatchRun_inv sched _ s hrun hinit1 hinit2
  rw [hq, hi] at hperm
  simp only [List.append_nil] at hperm
  have hmap : s.results = (s.results.map Prod.fst).map (fun t => (t, probe t)) :=
    results_eq_map_of_ok _ hres
  have hp2 : s.results.Perm (targets.map (fun t => (t, probe t))) := by
    rw [hmap]
    exact hperm.map _
  refine ⟨hp2, ?_, ?_⟩
  · have := hp2.length_eq
    simpa using this
  · intro t
    rw [hp2.countP_eq (fun p => p.1 == t), List.countP_map]
    rfl

end OpenWRT

namespace OpenWRT

/-- A network environment in which every host resolves to a dual-stack
address and probes succeed with two replies. -/
def envOkPing : PingEnv :=
  { lookupIP := fun h => .ok [{ str := h, is4 := true, is16 := true }],
    newPinger := fun _ => .ok (),
    runPing := fun _ => .ok [1500000, 2500000] }

/-- The configuration loaded from an empty environment (all defaults). -/
def cfgDefault : PingConfig := loadPingConfig (fun _ => "")

/-- A v4 target that resolves under `envOkPing`. -/
def tgA : PingTarget := { Host := "1.1.1.1", IPType := .IPv4 }

/-- A v6 target with no v6 address under `envOkPing` (per-target
failure). -/
def tgB : PingTarget := { Host := "2.2.2.2", IPType := .IPv6 }

/-- The probe the workers run under `envOkPing`. -/
def probeC1 : PingTarget → Except PingError PingResult :=
  fun t => pingTarget envOkPing t cfgDefault

/-- Witness for C1: two workers, two targets (one of which fails
resolution), schedule pull/pull/finish/finish — exactly one result per
target. -/
theorem ping_dispatch_one_result_per_target_witness :
    ([(tgA, probeC1 tgA), (tgB, probeC1 tgB)] :
      List (PingTarget × Except PingError PingResult)).Perm
      ([tgA, tgB].map (fun t => (t, probeC1 t))) ∧
    ([(tgA, probeC1 tgA), (tgB, probeC1 tgB)] :
      List (PingTarget × Except PingError PingResult)).length = [tgA, tgB].length ∧
    ([(tgA, probeC1 tgA), (tgB, probeC1 tgB)] :
      List (PingTarget × Except PingError PingResult)).countP (fun p => p.1 == tgB) =
      [tgA, tgB].countP (fun x => x == tgB) := by
  have h := ping_dispatch_one_result_per_target [tgA, tgB] probeC1 2
    [.pull, .pull, .finish 0, .finish 0]
    { queue := [], inflight := [], results := [(tgA, probeC1 tgA), (tgB, probeC1 tgB)] }
    rfl rfl rfl
  exact ⟨h.1, h.2.1, h.2.2 tgB⟩

/-- Resolution fails for a target when the DNS lookup errors or yields
no address of the requested family (the two guards at the top of
`pingTarget`). -/
def resolveFails (env : PingEnv) (t : PingTarget) : Prop :=
  (∃ e, env.lookupIP t.Host = .error e) ∨
  (∃ ips, env.lookupIP t.Host = .ok ips ∧
    (match t.IPType with
     | IPType.IPv4 => ips.find? (fun ip => ip.is4)
     | IPType.IPv6 => ips.find? (fun ip => !ip.is4 && ip.is16)) = none)

/-- When resolution fails, `pingTarget` returns a per-target error. -/
theorem pingTarget_error_of_resolveFails {env : PingEnv} {t : PingTarget}
    {cfg : PingConfig} (h : resolveFails env t) :
    ∃ e, pingTarget env t cfg = .error e := by
  rcases h with ⟨e, he⟩ | ⟨ips, hips, hnone⟩
  · exact ⟨.lookupFailed e.msg, by simp [pingTarget, he]⟩
  · refine ⟨.addrNotFound "no IPv6 address found" t.Host, ?_⟩
    simp only [pingTarget, hips]
    rw [hnone]

/-- A resolution failure is decided before the socket layer: the result
does not depend on `newPinger`, `runPing`, or the probe configuration. -/
theorem pingTarget_socket_independent {env env' : PingEnv} {t : PingTarget}
    {cfg cfg' : PingConfig} (hl : env'.lookupIP t.Host = env.lookupIP t.Host)
    (h : resolveFails env t) : pingTarget env t cfg = pingTarget env' t cfg' := by
  rcases h with ⟨e, he⟩ | ⟨ips, hips, hnone⟩
  · have he' : env'.lookupIP t.Host = .error e := hl.trans he
    simp [pingTarget, he, he']
  · have hips' : env'.lookupIP t.Host = .ok ips := hl.trans hips
    simp only [pingTarget, hips, hips']
    rw [hnone]

/-- Every emitted result's target was in a worker's in-flight slot at
some point of the schedule. -/
theorem dispatchRun_result_via_inflight
    {probe : PingTarget → Except PingError PingResult} {W : Nat} :
    ∀ (sched : List DispatchAction) (s0 s1 : DispatchState),
    dispatchRun probe W s0 sched = some s1 →
    ∀ p ∈ s1.results, p ∈ s0.results ∨
      ∃ k s', dispatchRun probe W s0 (sched.take k) = some s' ∧ p.1 ∈ s'.inflight := by
  intro sched
  induction sched with
  | nil =>
    intro s0 s1 hrun p hp
    simp only [dispatchRun, Option.some.injEq] at hrun
    subst hrun
    exact .inl hp
  | cons a as ih =>
    intro s0 s1 hrun p hp
    cases hst : dispatchStep probe W s0 a with
    | none => simp [dispatchRun, hst] at hrun
    | some sm =>
      simp only [dispatchRun, hst] at hrun
      rcases ih sm s1 hrun p hp with hmem | ⟨k, s', h1, h2⟩
      · cases a with
        | pull =>
          cases hqq : s0.queue with
          | nil => simp [dispatchStep, hqq] at hst
          | cons t q =>
            by_cases hw : s0.inflight.length < W
            · simp only [dispatchStep, hqq, if_pos hw, Option.some.injEq] at hst
              subst hst
              exact .inl hmem
            · simp [dispatchStep, hqq, if_neg hw] at hst
        | finish i =>
          cases hii : s0.inflight[i]? with
          | none => simp [dispatchStep, hii] at hst
          | some t =>
            simp only [dispatchStep, hii, Option.some.injEq] at hst
            subst hst
            rcases List.mem_cons.mp hmem with rfl | hold
            · exact .inr ⟨0, s0, rfl, List.getElem?_mem hii⟩
            · exact .inl hold
      · refine .inr ⟨k + 1, s', ?_, h2⟩
        simpa [dispatchRun, hst] using h1

end OpenWRT

namespace OpenWRT

/-- C2 (amended): each target's hostname is resolved inside `pingTarget`
by the worker handling it — before any probe socket exists, so a
resolution failure yields its per-target error independently of the
socket and probe layers — but the failing target is still scheduled to
a worker: any schedule that emits its result put it in an in-flight
worker slot first. -/
theorem resolution_inside_worker (env env' : PingEnv) (t : PingTarget)
    (cfg cfg' : PingConfig)
    (hl : env'.lookupIP t.Host = env.lookupIP t.Host) (hfail : resolveFails env t) :
    (∃ e, pingTarget env t cfg = .error e) ∧
    pingTarget env t cfg = pingTarget env' t cfg' ∧
    (∀ (probe : PingTarget → Except PingError PingResult) (W : Nat)
       (targets : List PingTarget) (sched : List DispatchAction) (s1 : DispatchState)
       (r : Except PingError PingResult),
      dispatchRun probe W (initState targets) sched = some s1 → (t, r) ∈ s1.results →
      ∃ k s', dispatchRun probe W (initState targets) (sched.take k) = some s' ∧
        t ∈ s'.inflight) := by
  refine ⟨pingTarget_error_of_resolveFails hfail,
    pingTarget_socket_independent hl hfail, ?_⟩
  intro probe W targets sched s1 r hrun hmem
  rcases dispatchRun_result_via_inflight sched _ s1 hrun (t, r) hmem with hin | ⟨k, s', h1, h2⟩
  · simp [initState] at hin
  · exact ⟨k, s', h1, h2⟩

/-- An environment in which hosts resolve to an empty address list. -/
def envNoAddr : PingEnv :=
  { lookupIP := fun _ => .ok [], newPinger := fun _ => .ok (), runPing := fun _ => .ok [] }

/-- `envNoAddr` with a failing socket layer: same lookups, but pinger
creation and probe runs error out. -/
def envNoSocket : PingEnv :=
  { lookupIP := fun _ => .ok [],
    newPinger := fun _ => .error { msg := "socket: operation not permitted" },
    runPing := fun _ => .error { msg := "not run" } }

/-- A target that resolves to no address of its family. -/
def tgBad : PingTarget := { Host := "bad.example", IPType := .IPv4 }

/-- The probe under `envNoAddr`. -/
def probeBad : PingTarget → Except PingError PingResult :=
  fun tg => pingTarget envNoAddr tg cfgDefault

/-- Counterexample for C2 as stated: with one unresolvable target and
one worker, the run that produces the target's error result first moves
the target into the worker's in-flight slot — resolution happens inside
the worker, after scheduling, and the target does consume a
probe-worker slot. -/
theorem resolution_before_scheduling_counterexample :
    probeBad tgBad = .error (.addrNotFound "no IPv6 address found" "bad.example") ∧
    dispatchRun probeBad 1 (initState [tgBad]) [.pull] =
      some { queue := [], inflight := [tgBad], results := [] } ∧
    dispatchRun probeBad 1 (initState [tgBad]) [.pull, .finish 0] =
      some { queue := [], inflight := [],
             results := [(tgBad,
               .error (.addrNotFound "no IPv6 address found" "bad.example"))] } :=
  ⟨rfl, rfl, rfl⟩

/-- Witness for the amended C2 at `envNoAddr` / `tgBad`: the error is
independent of the socket layer, and the completed schedule held the
target in flight at step 1. -/
theorem resolution_inside_worker_witness :
    (∃ e, pingTarget envNoAddr tgBad cfgDefault = .error e) ∧
    pingTarget envNoAddr tgBad cfgDefault = pingTarget envNoSocket tgBad cfgDefault ∧
    (∃ k s', dispatchRun probeBad 1 (initState [tgBad])
        ([DispatchAction.pull, .finish 0].take k) = some s' ∧ tgBad ∈ s'.inflight) := by
  have h := resolution_inside_worker envNoAddr envNoSocket tgBad cfgDefault cfgDefault rfl
    (Or.inr ⟨[], rfl, rfl⟩)
  exact ⟨h.1, h.2.1,
    h.2.2 probeBad 1 [tgBad] [.pull, .finish 0]
      { queue := [], inflight := [],
        results := [(tgBad, .error (.addrNotFound "no IPv6 address found" "bad.example"))] }
      (.error (.addrNotFound "no IPv6 address found" "bad.example")) rfl (by decide)⟩

/-- The per-result emission of `PingCollector.Collect` (lines 148-181):
an errored result is logged and skipped; a successful one contributes
its four gauges tagged with the target host, resolved IP and family. -/
def emitResultSamples (r : PingTarget × Except PingError PingResult) : List Metric :=
  match r.2 with
  | .error _ => []
  | .ok res =>
    [{ name := "openwrt_ping_avg_latency_ms", value := res.AvgLatencyMs,
       labels := [r.1.Host, res.IP, res.IPType] },
     { name := "openwrt_ping_min_latency_ms", value := res.MinLatencyMs,
       labels := [r.1.Host, res.IP, res.IPType] },
     { name := "openwrt_ping_max_latency_ms", value := res.MaxLatencyMs,
       labels := [r.1.Host, res.IP, res.IPType] },
     { name := "openwrt_ping_packet_loss_percent", value := res.PacketLoss,
       labels := [r.1.Host, res.IP, res.IPType] }]

/-- The result-drain loop of `PingCollector.Collect`: emit each
result's samples in stream order. -/
def pingCollectMetrics : List (PingTarget × Except PingError PingResult) → List Metric
  | [] => []
  | r :: rs => emitResultSamples r ++ pingCollectMetrics rs

/-- C4: an unresolvable target's probe returns an error, that error
result contributes no samples at all (no latency, no loss, no synthetic
error metric), and removing it from the result stream leaves every
other result's samples unchanged. -/
theorem resolution_failure_excluded (env : PingEnv) (t : PingTarget) (cfg : PingConfig)
    (hfail : resolveFails env t) (e : PingError)
    (rs1 rs2 : List (PingTarget × Except PingError PingResult)) :
    (∃ e', pingTarget env t cfg = .error e') ∧
    emitResultSamples (t, .error e) = [] ∧
    pingCollectMetrics (rs1 ++ (t, .error e) :: rs2) = pingCollectMetrics (rs1 ++ rs2) := by
  refine ⟨pingTarget_error_of_resolveFails hfail, rfl, ?_⟩
  induction rs1 with
  | nil => simp [pingCollectMetrics, emitResultSamples]
  | cons r rs ih => simp [pingCollectMetrics, ih]

/-- Witness for C4: the failing target contributes nothing while the
healthy target's samples are untouched. -/
theorem resolution_failure_excluded_witness :
    (∃ e', pingTarget envNoAddr tgBad cfgDefault = .error e') ∧
    emitResultSamples (tgBad,
      .error (.addrNotFound "no IPv6 address found" "bad.example")) = [] ∧
    pingCollectMetrics [(tgA, probeC1 tgA),
      (tgBad, .error (.addrNotFound "no IPv6 address found" "bad.example"))] =
      pingCollectMetrics [(tgA, probeC1 tgA)] := by
  have h := resolution_failure_excluded envNoAddr tgBad cfgDefault (Or.inr ⟨[], rfl, rfl⟩)
    (.addrNotFound "no IPv6 address found" "bad.example") [(tgA, probeC1 tgA)] []
  exact h

end OpenWRT
